import Mathlib

/-!
Verification of the chatbot repository's core components against its
design specification.

The development shallowly embeds the two core Python modules:

* `src/modules/message_store.py` — `MessageStore`, a bounded conversation
  history built on `collections.deque(maxlen = max_history * 2)` plus a
  separately held primary system message;
* `src/modules/chat_handler.py` — `ChatHandler`, a provider dispatcher over
  the OpenAI and Groq SDK clients with preference-based ordering, batch
  fallback (`get_response`) and streaming fallback (`stream_response`).

Python dictionaries `{"role": r, "content": c}` become the `Msg` structure;
the deque becomes a Lean list together with `dequeAppend`, which mirrors
`deque.append`'s discard-oldest-on-overflow behaviour; exceptions become
`Except`; the external SDK calls become outcome-valued parameters.
-/

/-- A chat message dictionary `{"role": r, "content": c}`. -/
structure Msg where
  role : String
  content : String
deriving DecidableEq, Repr

/-- State of `MessageStore` (src/modules/message_store.py): `max_history`
is the constructor argument (a Python int), `capacity` the deque's
`maxlen = max_history * 2`, `messages` the deque contents oldest first,
`system_message` the separately stored primary system message. -/
structure MessageStore where
  max_history : Int
  capacity : Nat
  messages : List Msg
  system_message : Option Msg
deriving DecidableEq, Repr

/-- `collections.deque.append` with `maxlen`: the new element goes to the
right and, past capacity, the leftmost (oldest) element is discarded, so the
result is the last `maxlen` elements of `q ++ [x]`. -/
def dequeAppend {α : Type} (maxlen : Nat) (q : List α) (x : α) : List α :=
  (q ++ [x]).drop ((q ++ [x]).length - maxlen)

/-- `MessageStore.__init__(max_history)`: `deque(maxlen=max_history * 2)`
raises `ValueError` when the computed `maxlen` is negative; otherwise the
store starts with an empty history and no system message. -/
def MessageStore.init (max_history : Int) : Except String MessageStore :=
  if max_history * 2 < 0 then
    .error "maxlen must be non-negative"
  else
    .ok { max_history := max_history, capacity := (max_history * 2).toNat,
          messages := [], system_message := none }

/-- `MessageStore.set_system_message`: replaces the primary system message. -/
def MessageStore.set_system_message (s : MessageStore) (content : String) : MessageStore :=
  { s with system_message := some { role := "system", content := content } }

/-- `MessageStore.add_system_message`: appends a system-role entry to the
bounded history deque (distinct from the primary system message). -/
def MessageStore.add_system_message (s : MessageStore) (content : String) : MessageStore :=
  { s with messages := dequeAppend s.capacity s.messages { role := "system", content := content } }

/-- `MessageStore.add_message`: system role delegates to
`set_system_message`; any other role is appended to the history deque. -/
def MessageStore.add_message (s : MessageStore) (role content : String) : MessageStore :=
  if role == "system" then
    s.set_system_message content
  else
    { s with messages := dequeAppend s.capacity s.messages { role := role, content := content } }

/-- `MessageStore.get_messages`: a fresh list holding the primary system
message (when set — the dict is non-empty, hence truthy) followed by the
deque contents in order. -/
def MessageStore.get_messages (s : MessageStore) : List Msg :=
  (match s.system_message with
   | some m => [m]
   | none => []) ++ s.messages

/-- `MessageStore.clear`: empties the history, keeps the system message. -/
def MessageStore.clear (s : MessageStore) : MessageStore :=
  { s with messages := [] }

/-- `MessageStore.get_conversation_count`: `len(self.messages) // 2`. -/
def MessageStore.get_conversation_count (s : MessageStore) : Nat :=
  s.messages.length / 2

/-- The last `m` elements of a list (the whole list when it is shorter). -/
def takeLast {α : Type} (m : Nat) (l : List α) : List α :=
  l.drop (l.length - m)

/-- A heap of Python list objects; an address is an index into the heap.
This refines the plain functional model just enough to talk about object
identity: `get_messages` builds its result in a brand-new list (`messages
= []` then `append`/`extend`), so the returned object is a fresh
allocation, never the store's own deque. -/
abbrev ListHeap : Type := List (List Msg)

/-- A `MessageStore` whose deque contents live in a `ListHeap` at address
`histAddr` (the primary system message is held by value, as in the plain
model). -/
structure MessageStoreRef where
  system_message : Option Msg
  histAddr : Nat

/-- Contents that `get_messages` assembles: primary system message (when
set) followed by the deque contents read from the heap. -/
def snapContents (s : MessageStoreRef) (h : ListHeap) : List Msg :=
  (match s.system_message with
   | some m => [m]
   | none => []) ++ h.getD s.histAddr []

/-- Heap-level `get_messages`: allocates a fresh list object holding
`snapContents` and returns its address together with the grown heap. -/
def get_messages_heap (s : MessageStoreRef) (h : ListHeap) : Nat × ListHeap :=
  (h.length, h ++ [snapContents s h])

/-- Lowercasing as Python's `str.lower()` (character by character). -/
def pyLower (s : String) : String := ⟨s.data.map Char.toLower⟩

/-- Python truthiness of an optional string credential: `None` and the
empty string are falsy, any other string is truthy. -/
def pyTruthy : Option String → Bool
  | none => false
  | some s => !(s == "")

/-- State of `ChatHandler` (src/modules/chat_handler.py): `providers` is the
registration-order list of successfully initialised provider names,
`provider_preference` the lowercased `provider` argument, the two
`_client_some` flags record whether the corresponding SDK client is
non-`None`, and the `_model` fields the configured model ids. The mutable
scratch fields `current_provider`/`current_model` are tracked by the event
traces of the streaming model below, not stored here. -/
structure ChatHandler where
  providers : List String
  provider_preference : String
  openai_client_some : Bool
  groq_client_some : Bool
  openai_model : String
  groq_model : String
deriving DecidableEq, Repr

/-- `ChatHandler.__init__`: for each truthy credential, construct the SDK
client (the `_sdk_ok` flags stand for whether that external constructor
raises) and register the provider — OpenAI first, then Groq; a failed
client constructor is caught and merely skipped. Raises `ValueError` iff
the registered provider list ends up empty. -/
def ChatHandler.init (openai_key : Option String) (openai_model : String)
    (groq_key : Option String) (groq_model : String) (provider : String)
    (openai_sdk_ok groq_sdk_ok : Bool) : Except String ChatHandler :=
  let openaiSome := pyTruthy openai_key && openai_sdk_ok
  let groqSome := pyTruthy groq_key && groq_sdk_ok
  let providers := (if openaiSome then ["openai"] else [])
    ++ (if groqSome then ["groq"] else [])
  if providers.isEmpty then
    .error "No AI providers available. Please provide at least one API key."
  else
    .ok { providers := providers, provider_preference := pyLower provider,
          openai_client_some := openaiSome, groq_client_some := groqSome,
          openai_model := openai_model, groq_model := groq_model }

/-- `ChatHandler._get_provider_order`: a named, registered preferred
provider goes first, followed by the remaining providers in registration
order; otherwise Python's stable `sorted` with key `0 if x == 'groq' else
1` — which, the key being two-valued, equals this stable partition putting
every groq entry before every non-groq entry. -/
def ChatHandler.get_provider_order (h : ChatHandler) : List String :=
  if h.provider_preference == "openai" && h.providers.contains "openai" then
    "openai" :: h.providers.filter (fun p => !(p == "openai"))
  else if h.provider_preference == "groq" && h.providers.contains "groq" then
    "groq" :: h.providers.filter (fun p => !(p == "groq"))
  else
    h.providers.filter (fun p => p == "groq")
      ++ h.providers.filter (fun p => !(p == "groq"))

/-- A provider name passes the dispatch guard (`provider == '...' and
self...._client`) exactly when it names a provider whose client is set. -/
def ChatHandler.usable (h : ChatHandler) (p : String) : Bool :=
  (p == "groq" && h.groq_client_some) || (p == "openai" && h.openai_client_some)

/-- Model id the dispatcher reports for a given usable provider. -/
def ChatHandler.model_for (h : ChatHandler) (p : String) : String :=
  if p == "groq" then h.groq_model else h.openai_model

/-- Token usage dictionary reported by both SDKs. -/
structure Usage where
  prompt_tokens : Nat
  completion_tokens : Nat
  total_tokens : Nat
deriving DecidableEq, Repr

/-- Payload extracted from a successful completion call in
`_try_groq` / `_try_openai`. -/
structure ApiReply where
  message : String
  usage : Usage
deriving DecidableEq, Repr

/-- Outcome of one synchronous completion call against provider `p`:
either a reply or a raised exception carrying `str(e)`. -/
inductive ApiOutcome where
  | ok : ApiReply → ApiOutcome
  | err : String → ApiOutcome
deriving DecidableEq, Repr

/-- Result dictionary of `get_response`; fields absent from one of the two
Python dict shapes are `none`. -/
structure RespDict where
  success : Bool
  message : String
  provider : Option String
  model : Option String
  usage : Option Usage
  error : Option String
deriving DecidableEq, Repr

/-- The generic user-facing apology text of the all-failed result. -/
def apologyText : String :=
  "Sorry, all AI services are currently unavailable. Please try again later."

/-- Loop body of `get_response`: walk the resolved order keeping the
accumulated `errors` list; a success returns immediately, a failure
records `"<provider>: <msg>"` and continues, exhaustion returns the
aggregate failure dict. -/
def getResponseGo (h : ChatHandler) (api : String → ApiOutcome) :
    List String → List String → RespDict
  | [], errors =>
    { success := false, message := apologyText, provider := none, model := none,
      usage := none, error := some (String.intercalate " | " errors) }
  | p :: rest, errors =>
    if p == "groq" && h.groq_client_some then
      match api "groq" with
      | .ok r =>
        { success := true, message := r.message, provider := some "groq",
          model := some h.groq_model, usage := some r.usage, error := none }
      | .err m => getResponseGo h api rest (errors ++ ["groq: " ++ m])
    else if p == "openai" && h.openai_client_some then
      match api "openai" with
      | .ok r =>
        { success := true, message := r.message, provider := some "openai",
          model := some h.openai_model, usage := some r.usage, error := none }
      | .err m => getResponseGo h api rest (errors ++ ["openai: " ++ m])
    else
      getResponseGo h api rest errors

/-- `ChatHandler.get_response`: one linear pass over the resolved provider
order; total — it returns a failure dict rather than raising. -/
def ChatHandler.get_response (h : ChatHandler) (api : String → ApiOutcome) : RespDict :=
  getResponseGo h api h.get_provider_order []

/-- Handler with both providers configured, as produced by the constructor
with both credentials present and preference `auto`. -/
def handlerBothAuto : ChatHandler :=
  { providers := ["openai", "groq"], provider_preference := "auto",
    openai_client_some := true, groq_client_some := true,
    openai_model := "gpt-3.5-turbo", groq_model := "llama-3.1-70b-versatile" }

/-- Like `handlerBothAuto` but with preference `openai`. -/
def handlerBothOpenai : ChatHandler :=
  { handlerBothAuto with provider_preference := "openai" }

/-- Per-adapter outcome of one streaming attempt: the content fragments
the generator yielded from the stream (chunks whose delta content was not
`None`) before the stream either completed (`errored = false`) or raised
(`errored = true` — the raise may occur before the first fragment or
mid-stream). -/
structure StreamAttempt where
  fragments : List String
  errored : Bool
deriving DecidableEq, Repr

/-- Observable event of the `stream_response` generator: an assignment to
the scratch fields `current_provider`/`current_model`, or a yielded
fragment. -/
inductive StreamEv where
  | setCur : Option String → Option String → StreamEv
  | out : String → StreamEv
deriving DecidableEq, Repr

/-- The fixed generic error string yielded when every adapter fails. -/
def streamErrText : String := "Error: All AI services are currently unavailable."

/-- Loop of `stream_response` as an event trace: each usable provider is
attempted in order — scratch state is set to the provider before the
stream opens, its fragments are yielded, and on error the scratch state is
cleared and the loop falls through to a fresh attempt on the next
provider; with the order exhausted the scratch state becomes the sentinel
`('error', 'none')` and the generic error string is yielded. -/
def streamGo (h : ChatHandler) (api : String → StreamAttempt) :
    List String → List StreamEv
  | [] => [.setCur (some "error") (some "none"), .out streamErrText]
  | p :: rest =>
    if p == "groq" && h.groq_client_some then
      .setCur (some "groq") (some h.groq_model)
        :: ((api "groq").fragments.map .out
            ++ (if (api "groq").errored then .setCur none none :: streamGo h api rest else []))
    else if p == "openai" && h.openai_client_some then
      .setCur (some "openai") (some h.openai_model)
        :: ((api "openai").fragments.map .out
            ++ (if (api "openai").errored then .setCur none none :: streamGo h api rest else []))
    else
      streamGo h api rest

/-- `ChatHandler.stream_response`: the full event trace over the resolved
provider order. -/
def ChatHandler.stream_response (h : ChatHandler) (api : String → StreamAttempt) :
    List StreamEv :=
  streamGo h api h.get_provider_order

/-- Projection selecting yielded fragments. -/
def pickOut : StreamEv → Option String
  | .out s => some s
  | _ => none

/-- Projection selecting scratch-state assignments. -/
def pickCur : StreamEv → Option (Option String × Option String)
  | .setCur p m => some (p, m)
  | _ => none

/-- The sequence of fragments the consumer receives. -/
def streamYields (evs : List StreamEv) : List String :=
  evs.filterMap pickOut

/-- The scratch `current_provider`/`current_model` pair after the
generator is exhausted: the last assignment in the trace. -/
def streamFinalCur (evs : List StreamEv) : Option (Option String × Option String) :=
  (evs.filterMap pickCur).getLast?

theorem takeLast_eq_reverse_take {α : Type} (m : Nat) (l : List α) :
    takeLast m l = (l.reverse.take m).reverse := by
  have h := List.reverse_drop (l := l) (n := l.length - m)
  unfold takeLast
  rcases le_or_lt m l.length with hle | hlt
  · rw [Nat.sub_sub_self hle] at h
    calc l.drop (l.length - m) = (l.drop (l.length - m)).reverse.reverse := by
          rw [List.reverse_reverse]
      _ = (l.reverse.take m).reverse := by rw [h]
  · have h2 : l.reverse.take m = l.reverse := by
      apply List.take_of_length_le
      simp
      omega
    have h3 : l.length - m = 0 := by omega
    rw [h3, List.drop_zero, h2, List.reverse_reverse]

theorem dequeAppend_eq_takeLast {α : Type} (m : Nat) (q : List α) (x : α) :
    dequeAppend m q x = takeLast m (q ++ [x]) := rfl

theorem take_append_of_take {α : Type} (m : Nat) (u v : List α) :
    (u ++ v.take m).take m = (u ++ v).take m := by
  rw [List.take_append_eq_append_take, List.take_append_eq_append_take,
      List.take_take]
  have : (m - u.length) ⊓ m = m - u.length := by omega
  rw [this]

theorem takeLast_takeLast_append {α : Type} (m : Nat) (a l : List α) :
    takeLast m (takeLast m a ++ l) = takeLast m (a ++ l) := by
  rw [takeLast_eq_reverse_take, takeLast_eq_reverse_take (l := a ++ l),
      takeLast_eq_reverse_take (l := a)]
  rw [List.reverse_append, List.reverse_reverse, List.reverse_append]
  rw [take_append_of_take]

theorem length_dequeAppend_le {α : Type} (m : Nat) (q : List α) (x : α) :
    (dequeAppend m q x).length ≤ m := by
  unfold dequeAppend
  rw [List.length_drop]
  omega

theorem foldl_dequeAppend {α : Type} (m : Nat) :
    ∀ (l q : List α), q.length ≤ m →
      l.foldl (dequeAppend m) q = takeLast m (q ++ l) := by
  intro l
  induction l with
  | nil =>
      intro q hq
      simp [takeLast, Nat.sub_eq_zero_of_le hq]
  | cons x l ih =>
      intro q hq
      rw [List.foldl_cons, ih _ (length_dequeAppend_le m q x),
          dequeAppend_eq_takeLast, takeLast_takeLast_append]
      simp

theorem length_takeLast {α : Type} (m : Nat) (l : List α) :
    (takeLast m l).length = min m l.length := by
  unfold takeLast
  rw [List.length_drop]
  omega

theorem fold_add_message_messages :
    ∀ (msgs : List Msg) (s : MessageStore), (∀ mm ∈ msgs, ¬ mm.role = "system") →
      (msgs.foldl (fun st mm => st.add_message mm.role mm.content) s).messages
        = msgs.foldl (dequeAppend s.capacity) s.messages
      ∧ (msgs.foldl (fun st mm => st.add_message mm.role mm.content) s).capacity
        = s.capacity := by
  intro msgs
  induction msgs with
  | nil => intro s _; exact ⟨rfl, rfl⟩
  | cons mm msgs ih =>
      intro s hroles
      have hmm : ¬ mm.role = "system" := hroles mm (List.mem_cons_self mm msgs)
      have hstep : s.add_message mm.role mm.content
          = { s with messages := dequeAppend s.capacity s.messages mm } := by
        unfold MessageStore.add_message
        rw [if_neg (by simpa using hmm)]
      have hrest : ∀ x ∈ msgs, ¬ x.role = "system" :=
        fun x hx => hroles x (List.mem_cons_of_mem mm hx)
      rw [List.foldl_cons, hstep]
      exact ih _ hrest

/-- C1: with `maxPairs = n ≥ 1`, appending `2n + k` (`k > 0`) non-system
messages to a freshly constructed store leaves exactly the most recent
`2n` messages in their original relative order (the oldest were evicted
first), so the history length is exactly `2n`. -/
theorem C1_bounded_history (n k : Nat) (msgs : List Msg) (s0 : MessageStore)
    (hn : 1 ≤ n) (hk : 0 < k)
    (hinit : MessageStore.init (n : Int) = .ok s0)
    (hlen : msgs.length = 2 * n + k)
    (hroles : ∀ mm ∈ msgs, ¬ mm.role = "system") :
    (msgs.foldl (fun st mm => st.add_message mm.role mm.content) s0).messages.length = 2 * n
    ∧ (msgs.foldl (fun st mm => st.add_message mm.role mm.content) s0).messages
        = msgs.drop (msgs.length - 2 * n) := by
  have hnn : ¬ ((n : Int) * 2 < 0) := by omega
  unfold MessageStore.init at hinit
  rw [if_neg hnn] at hinit
  have hs0 : s0 = { max_history := (n : Int), capacity := ((n : Int) * 2).toNat,
                    messages := [], system_message := none } := by
    cases hinit
    rfl
  have hcap : s0.capacity = 2 * n := by
    rw [hs0]
    simp
    omega
  have hmsgs0 : s0.messages = [] := by rw [hs0]
  obtain ⟨hfold, _⟩ := fold_add_message_messages msgs s0 hroles
  rw [hfold, hcap, hmsgs0]
  rw [foldl_dequeAppend (2 * n) msgs [] (by simp)]
  simp only [List.nil_append]
  constructor
  · rw [length_takeLast]
    omega
  · unfold takeLast
    rfl

theorem C1_bounded_history_witness :
    (([⟨"user", "a"⟩, ⟨"assistant", "b"⟩, ⟨"user", "c"⟩] : List Msg).foldl
        (fun st mm => st.add_message mm.role mm.content)
        ({ max_history := 1, capacity := 2, messages := [],
           system_message := none } : MessageStore)).messages.length
      = 2 * 1
    ∧ (([⟨"user", "a"⟩, ⟨"assistant", "b"⟩, ⟨"user", "c"⟩] : List Msg).foldl
        (fun st mm => st.add_message mm.role mm.content)
        ({ max_history := 1, capacity := 2, messages := [],
           system_message := none } : MessageStore)).messages
      = ([⟨"user", "a"⟩, ⟨"assistant", "b"⟩, ⟨"user", "c"⟩] : List Msg).drop
          (([⟨"user", "a"⟩, ⟨"assistant", "b"⟩, ⟨"user", "c"⟩] : List Msg).length - 2 * 1) :=
  C1_bounded_history 1 1 _ _ (by decide) (by decide) rfl (by decide) (by decide)

/-- C4: in every store state, `get_messages` returns the primary system
message (when set) at index 0 followed by the full history in insertion
order; with no primary message set, index 0 is the oldest surviving history
entry. The operation is a pure read: it is a function of the state alone
and returns a fresh list (see the heap-level development below), so
repeated calls with no intervening operation return equal lists. -/
theorem C4_snapshot_shape (s : MessageStore) :
    (∀ d : Msg, s.system_message = some d →
        s.get_messages = d :: s.messages ∧ s.get_messages.head? = some d)
    ∧ (s.system_message = none →
        s.get_messages = s.messages ∧ s.get_messages.head? = s.messages.head?) := by
  constructor
  · intro d hd
    unfold MessageStore.get_messages
    rw [hd]
    exact ⟨rfl, rfl⟩
  · intro hnone
    unfold MessageStore.get_messages
    rw [hnone]
    exact ⟨rfl, rfl⟩

theorem C4_snapshot_shape_witness :
    ({ max_history := 1, capacity := 2, messages := [⟨"user", "hi"⟩],
       system_message := some ⟨"system", "sys"⟩ } : MessageStore).get_messages
        = ⟨"system", "sys"⟩ :: [⟨"user", "hi"⟩]
    ∧ ({ max_history := 1, capacity := 2, messages := [⟨"user", "hi"⟩],
         system_message := some ⟨"system", "sys"⟩ } : MessageStore).get_messages.head?
        = some ⟨"system", "sys"⟩ :=
  (C4_snapshot_shape _).1 ⟨"system", "sys"⟩ rfl

/-- C5 counterexample: the claim says construction with `maxPairs <= 0`
fails, but `MessageStore(0)` succeeds — `deque(maxlen=0)` is legal in
Python — yielding a store whose history capacity is 0. -/
theorem C5_counterexample :
    MessageStore.init 0
      = .ok { max_history := 0, capacity := 0, messages := [], system_message := none } := rfl

/-- C5 (amended): construction fails (with `deque`'s `ValueError`,
"maxlen must be non-negative") exactly when `maxPairs < 0`; `maxPairs = 0`
is accepted and gives a zero-capacity history. All other operations are
total functions of the state (no error conditions), as their Lean types
show. -/
theorem C5_construction_amended (m : Int) :
    ((MessageStore.init m).isOk = true ↔ 0 ≤ m)
    ∧ (m < 0 → MessageStore.init m = .error "maxlen must be non-negative") := by
  constructor
  · unfold MessageStore.init
    by_cases hm : m * 2 < 0
    · rw [if_pos hm]
      simp [Except.isOk, Except.toBool]
      omega
    · rw [if_neg hm]
      simp [Except.isOk, Except.toBool]
      omega
  · intro hm
    unfold MessageStore.init
    rw [if_pos (by omega)]

theorem C5_construction_amended_witness :
    MessageStore.init (-1) = .error "maxlen must be non-negative" :=
  (C5_construction_amended (-1)).2 (by decide)

/-- C9: `add_system_message` appends a `{role:"system", content}` entry
into the bounded history deque, distinct from the primary system message.
The conjuncts state: it goes through the very same `dequeAppend` as the
ordinary `add_message` path (so it is subject to the identical eviction
rule), it counts against the capacity bound, at capacity the oldest entry
is evicted, below capacity it is a plain append, the primary system
message is untouched, and in the snapshot it never appears ahead of the
primary system message (which stays at index 0). -/
theorem C9_extra_system_note (s : MessageStore) (c : String) :
    (s.add_system_message c).messages
        = dequeAppend s.capacity s.messages ⟨"system", c⟩
    ∧ (∀ r, ¬ r = "system" →
        (s.add_message r c).messages = dequeAppend s.capacity s.messages ⟨r, c⟩)
    ∧ (s.messages.length ≤ s.capacity →
        (s.add_system_message c).messages.length ≤ s.capacity)
    ∧ (s.messages.length = s.capacity → 0 < s.capacity →
        (s.add_system_message c).messages = s.messages.drop 1 ++ [⟨"system", c⟩])
    ∧ (s.messages.length < s.capacity →
        (s.add_system_message c).messages = s.messages ++ [⟨"system", c⟩])
    ∧ (s.add_system_message c).system_message = s.system_message
    ∧ (∀ d : Msg, s.system_message = some d →
        ((s.add_system_message c).get_messages).head? = some d) := by
  refine ⟨rfl, ?_, ?_, ?_, ?_, rfl, ?_⟩
  · intro r hr
    unfold MessageStore.add_message
    rw [if_neg (by simpa using hr)]
  · intro _
    exact length_dequeAppend_le s.capacity s.messages _
  · intro hfull hpos
    show dequeAppend s.capacity s.messages ⟨"system", c⟩ = _
    unfold dequeAppend
    have h1 : (s.messages ++ [(⟨"system", c⟩ : Msg)]).length - s.capacity = 1 := by
      simp only [List.length_append, List.length_cons, List.length_nil]
      omega
    have h2 : (1 : Nat) ≤ s.messages.length := by omega
    rw [h1, List.drop_append_of_le_length h2]
  · intro hlt
    show dequeAppend s.capacity s.messages ⟨"system", c⟩ = _
    unfold dequeAppend
    have h1 : (s.messages ++ [(⟨"system", c⟩ : Msg)]).length - s.capacity = 0 := by
      simp only [List.length_append, List.length_cons, List.length_nil]
      omega
    rw [h1, List.drop_zero]
  · intro d hd
    unfold MessageStore.get_messages MessageStore.add_system_message
    simp only [hd]
    rfl

theorem C9_extra_system_note_witness :
    (({ max_history := 1, capacity := 2,
        messages := [⟨"user", "a"⟩, ⟨"assistant", "b"⟩],
        system_message := some ⟨"system", "sys"⟩ } : MessageStore).add_system_message
          "note").messages
      = [⟨"assistant", "b"⟩, ⟨"system", "note"⟩]
    ∧ (({ max_history := 1, capacity := 2,
          messages := [⟨"user", "a"⟩, ⟨"assistant", "b"⟩],
          system_message := some ⟨"system", "sys"⟩ } : MessageStore).add_system_message
            "note").get_messages.head?
      = some ⟨"system", "sys"⟩ := by
  obtain ⟨-, -, -, h4, -, -, h7⟩ :=
    C9_extra_system_note
      ({ max_history := 1, capacity := 2,
         messages := [⟨"user", "a"⟩, ⟨"assistant", "b"⟩],
         system_message := some ⟨"system", "sys"⟩ } : MessageStore) "note"
  exact ⟨(h4 rfl (by decide)).trans (by decide), h7 ⟨"system", "sys"⟩ rfl⟩

theorem snapContents_eq_get_messages (s : MessageStoreRef) (h : ListHeap) :
    snapContents s h
      = MessageStore.get_messages
          { max_history := 0, capacity := 0,
            messages := h.getD s.histAddr [], system_message := s.system_message } := rfl

/-- C10: the list returned by `get_messages` is a fresh copy. The address
returned by the heap-level model differs from the store's deque address,
and overwriting the returned list in place (for example `app.py`'s
`messages.append(file_context)`) leaves the deque contents — and hence the
result of a subsequent `get_messages` — unchanged. The primary system
message is held by value in the store and is untouched by construction. -/
theorem C10_snapshot_fresh (s : MessageStoreRef) (h : ListHeap) (mutl : List Msg)
    (haddr : s.histAddr < h.length) :
    (get_messages_heap s h).1 ≠ s.histAddr
    ∧ ((get_messages_heap s h).2.set (get_messages_heap s h).1 mutl).getD s.histAddr []
        = h.getD s.histAddr []
    ∧ snapContents s ((get_messages_heap s h).2.set (get_messages_heap s h).1 mutl)
        = snapContents s h := by
  have hne : h.length ≠ s.histAddr := by omega
  have hget : ((h ++ [snapContents s h]).set h.length mutl).getD s.histAddr []
      = h.getD s.histAddr [] := by
    rw [List.getD_eq_getElem?_getD, List.getD_eq_getElem?_getD,
        List.getElem?_set_ne hne, List.getElem?_append_left haddr]
  refine ⟨hne, hget, ?_⟩
  unfold snapContents
  simp only [get_messages_heap]
  rw [hget]

theorem C10_snapshot_fresh_witness :
    (get_messages_heap ⟨some ⟨"system", "sys"⟩, 0⟩ [[⟨"user", "a"⟩]]).1 ≠ 0
    ∧ ((get_messages_heap ⟨some ⟨"system", "sys"⟩, 0⟩ [[⟨"user", "a"⟩]]).2.set
          (get_messages_heap ⟨some ⟨"system", "sys"⟩, 0⟩ [[⟨"user", "a"⟩]]).1
          [⟨"user", "mutated"⟩]).getD 0 []
        = ([[⟨"user", "a"⟩]] : ListHeap).getD 0 []
    ∧ snapContents ⟨some ⟨"system", "sys"⟩, 0⟩
          ((get_messages_heap ⟨some ⟨"system", "sys"⟩, 0⟩ [[⟨"user", "a"⟩]]).2.set
            (get_messages_heap ⟨some ⟨"system", "sys"⟩, 0⟩ [[⟨"user", "a"⟩]]).1
            [⟨"user", "mutated"⟩])
        = snapContents ⟨some ⟨"system", "sys"⟩, 0⟩ [[⟨"user", "a"⟩]] :=
  C10_snapshot_fresh ⟨some ⟨"system", "sys"⟩, 0⟩ [[⟨"user", "a"⟩]]
    [⟨"user", "mutated"⟩] (by decide)

theorem handlerBothAuto_from_init :
    ChatHandler.init (some "sk-test") "gpt-3.5-turbo" (some "gsk-test")
      "llama-3.1-70b-versatile" "auto" true true = .ok handlerBothAuto := rfl

theorem handlerBothOpenai_from_init :
    ChatHandler.init (some "sk-test") "gpt-3.5-turbo" (some "gsk-test")
      "llama-3.1-70b-versatile" "OpenAI" true true = .ok handlerBothOpenai := rfl

/-- C3: the resolved provider order. If the preference names a registered
provider, it goes first followed by the other registered providers in
registration order; otherwise the order is the stable partition placing
every groq-class provider before every openai-class one (registration
order within each class). Concretely, with both providers configured,
preference `auto` resolves to `[groq, openai]` and preference `openai`
to `[openai, groq]`. -/
theorem C3_provider_order (h : ChatHandler) :
    (h.provider_preference = "openai" → "openai" ∈ h.providers →
        h.get_provider_order = "openai" :: h.providers.filter (fun p => !(p == "openai")))
    ∧ (h.provider_preference = "groq" → "groq" ∈ h.providers →
        h.get_provider_order = "groq" :: h.providers.filter (fun p => !(p == "groq")))
    ∧ (¬ (h.provider_preference = "openai" ∧ "openai" ∈ h.providers) →
       ¬ (h.provider_preference = "groq" ∧ "groq" ∈ h.providers) →
        h.get_provider_order
          = h.providers.filter (fun p => p == "groq")
            ++ h.providers.filter (fun p => !(p == "groq")))
    ∧ handlerBothAuto.get_provider_order = ["groq", "openai"]
    ∧ handlerBothOpenai.get_provider_order = ["openai", "groq"] := by
  refine ⟨?_, ?_, ?_, by decide, by decide⟩
  · intro hpref hmem
    unfold ChatHandler.get_provider_order
    rw [if_pos]
    simp [hpref, List.elem_iff, hmem]
  · intro hpref hmem
    have hno : ¬ (h.provider_preference == "openai" && h.providers.contains "openai") = true := by
      simp [hpref]
    unfold ChatHandler.get_provider_order
    rw [if_neg hno, if_pos]
    simp [hpref, List.elem_iff, hmem]
  · intro h1 h2
    have hno1 : ¬ (h.provider_preference == "openai" && h.providers.contains "openai") = true := by
      simp only [Bool.and_eq_true, beq_iff_eq, List.elem_iff]
      intro hc
      exact h1 ⟨hc.1, hc.2⟩
    have hno2 : ¬ (h.provider_preference == "groq" && h.providers.contains "groq") = true := by
      simp only [Bool.and_eq_true, beq_iff_eq, List.elem_iff]
      intro hc
      exact h2 ⟨hc.1, hc.2⟩
    unfold ChatHandler.get_provider_order
    rw [if_neg hno1, if_neg hno2]

theorem C3_provider_order_witness :
    handlerBothOpenai.get_provider_order
      = "openai" :: handlerBothOpenai.providers.filter (fun p => !(p == "openai")) :=
  (C3_provider_order handlerBothOpenai).1 rfl (by decide)

/-- C6: the constructor registers a provider for each tuple whose
credential is truthy and whose SDK client constructor does not raise; a
tuple whose client constructor raises is skipped without failing the
whole constructor; and the constructor returns the `ValueError` exactly
when the registered set ends up empty — in particular with zero truthy
credentials it always fails. -/
theorem C6_constructor (openai_key : Option String) (openai_model : String)
    (groq_key : Option String) (groq_model : String) (provider : String)
    (openai_sdk_ok groq_sdk_ok : Bool) :
    ((∃ e, ChatHandler.init openai_key openai_model groq_key groq_model provider
          openai_sdk_ok groq_sdk_ok = .error e)
      ↔ ¬ ((pyTruthy openai_key && openai_sdk_ok) = true
            ∨ (pyTruthy groq_key && groq_sdk_ok) = true))
    ∧ (∀ s, ChatHandler.init openai_key openai_model groq_key groq_model provider
          openai_sdk_ok groq_sdk_ok = .ok s →
        (("openai" ∈ s.providers ↔ (pyTruthy openai_key && openai_sdk_ok) = true)
         ∧ ("groq" ∈ s.providers ↔ (pyTruthy groq_key && groq_sdk_ok) = true)))
    ∧ (pyTruthy openai_key = false → pyTruthy groq_key = false →
        ChatHandler.init openai_key openai_model groq_key groq_model provider
          openai_sdk_ok groq_sdk_ok
          = .error "No AI providers available. Please provide at least one API key.") := by
  cases ha : pyTruthy openai_key && openai_sdk_ok
  <;> cases hb : pyTruthy groq_key && groq_sdk_ok
  <;> refine ⟨?_, ?_, ?_⟩
  <;> simp_all [ChatHandler.init]

theorem C6_constructor_witness :
    ChatHandler.init none "gpt-3.5-turbo" none "llama-3.1-70b-versatile" "auto" true true
      = .error "No AI providers available. Please provide at least one API key." :=
  (C6_constructor none "gpt-3.5-turbo" none "llama-3.1-70b-versatile" "auto" true true).2.2
    rfl rfl

theorem usable_cases (h : ChatHandler) (p : String) (hu : h.usable p = true) :
    (p = "groq" ∧ h.groq_client_some = true)
    ∨ (p = "openai" ∧ h.openai_client_some = true) := by
  unfold ChatHandler.usable at hu
  simp only [Bool.or_eq_true, Bool.and_eq_true, beq_iff_eq] at hu
  exact hu

theorem getResponseGo_err_step (h : ChatHandler) (api : String → ApiOutcome)
    (p : String) (rest errors : List String) (m : String)
    (hu : h.usable p = true) (he : api p = .err m) :
    getResponseGo h api (p :: rest) errors
      = getResponseGo h api rest (errors ++ [p ++ ": " ++ m]) := by
  rcases usable_cases h p hu with ⟨hp, hc⟩ | ⟨hp, hc⟩
  <;> subst hp
  <;> simp [getResponseGo, hc, he]

theorem getResponseGo_ok_step (h : ChatHandler) (api : String → ApiOutcome)
    (p : String) (rest errors : List String) (r : ApiReply)
    (hu : h.usable p = true) (hok : api p = .ok r) :
    getResponseGo h api (p :: rest) errors
      = { success := true, message := r.message, provider := some p,
          model := some (h.model_for p), usage := some r.usage, error := none } := by
  rcases usable_cases h p hu with ⟨hp, hc⟩ | ⟨hp, hc⟩
  <;> subst hp
  <;> simp [getResponseGo, ChatHandler.model_for, hc, hok]

theorem getResponseGo_err_run (h : ChatHandler) (api : String → ApiOutcome)
    (em : String → String) :
    ∀ (pre rest errors : List String),
      (∀ q ∈ pre, h.usable q = true) →
      (∀ q ∈ pre, api q = .err (em q)) →
      getResponseGo h api (pre ++ rest) errors
        = getResponseGo h api rest (errors ++ pre.map (fun q => q ++ ": " ++ em q)) := by
  intro pre
  induction pre with
  | nil => intro rest errors _ _; simp
  | cons p pre ih =>
      intro rest errors hus hes
      have hu := hus p (List.mem_cons_self p pre)
      have he := hes p (List.mem_cons_self p pre)
      rw [List.cons_append,
          getResponseGo_err_step h api p (pre ++ rest) errors (em p) hu he,
          ih rest _ (fun q hq => hus q (List.mem_cons_of_mem p hq))
            (fun q hq => hes q (List.mem_cons_of_mem p hq))]
      simp

/-- C2: `get_response` walks the resolved provider order. The first
conjunct: if every provider before `p` in the order fails (each failure
recorded once, no retry) and `p` succeeds, the call returns `p`'s success
dict immediately. The second conjunct: if every provider in the order
fails, the call returns — as an ordinary value, the Lean function being
total just as the Python method never lets the exception escape — the
failure dict whose `error` joins the recorded `"<provider>: <msg>"`
entries with `" | "` in resolution order and whose `message` is the
generic apology text. -/
theorem C2_get_response_fallback (h : ChatHandler) (api : String → ApiOutcome)
    (em : String → String) :
    (∀ pre p rest r,
        h.get_provider_order = pre ++ p :: rest →
        (∀ q ∈ pre, h.usable q = true) →
        (∀ q ∈ pre, api q = .err (em q)) →
        h.usable p = true →
        api p = .ok r →
        h.get_response api
          = { success := true, message := r.message, provider := some p,
              model := some (h.model_for p), usage := some r.usage, error := none })
    ∧ ((∀ q ∈ h.get_provider_order, h.usable q = true) →
       (∀ q ∈ h.get_provider_order, api q = .err (em q)) →
        h.get_response api
          = { success := false, message := apologyText, provider := none, model := none,
              usage := none,
              error := some (String.intercalate " | "
                (h.get_provider_order.map (fun q => q ++ ": " ++ em q))) }) := by
  constructor
  · intro pre p rest r horder hus hes hu hok
    unfold ChatHandler.get_response
    rw [horder, getResponseGo_err_run h api em pre (p :: rest) [] hus hes,
        getResponseGo_ok_step h api p rest _ r hu hok]
  · intro hus hes
    unfold ChatHandler.get_response
    have hgen : ∀ (l errors : List String),
        (∀ q ∈ l, h.usable q = true) →
        (∀ q ∈ l, api q = .err (em q)) →
        getResponseGo h api l errors
          = { success := false, message := apologyText, provider := none, model := none,
              usage := none,
              error := some (String.intercalate " | "
                (errors ++ l.map (fun q => q ++ ": " ++ em q))) } := by
      intro l
      induction l with
      | nil => intro errors _ _; simp [getResponseGo]
      | cons p l ih =>
          intro errors hus2 hes2
          rw [getResponseGo_err_step h api p l errors (em p)
                (hus2 p (List.mem_cons_self p l)) (hes2 p (List.mem_cons_self p l)),
              ih _ (fun q hq => hus2 q (List.mem_cons_of_mem p hq))
                (fun q hq => hes2 q (List.mem_cons_of_mem p hq))]
          simp
    rw [hgen h.get_provider_order [] hus hes]
    simp

theorem C2_get_response_fallback_witness :
    handlerBothAuto.get_response
        (fun p => .err ("boom-" ++ p))
      = { success := false, message := apologyText, provider := none, model := none,
          usage := none, error := some "groq: boom-groq | openai: boom-openai" } :=
  ((C2_get_response_fallback handlerBothAuto
      (fun p => .err ("boom-" ++ p)) (fun p => "boom-" ++ p)).2
    (by decide) (fun q _ => rfl)).trans (by decide)

theorem filterMap_pickOut_map_out (l : List String) :
    (l.map StreamEv.out).filterMap pickOut = l := by
  induction l with
  | nil => rfl
  | cons x l ih => simp [pickOut, ih]

theorem filterMap_pickCur_map_out (l : List String) :
    (l.map StreamEv.out).filterMap pickCur = [] := by
  induction l with
  | nil => rfl
  | cons x l ih => simp [pickCur, ih]

theorem streamGo_skip (h : ChatHandler) (api : String → StreamAttempt)
    (p : String) (rest : List String) (hu : h.usable p = false) :
    streamGo h api (p :: rest) = streamGo h api rest := by
  have h1 : (p == "groq" && h.groq_client_some) = false := by
    unfold ChatHandler.usable at hu
    rcases Bool.or_eq_false_iff.mp hu with ⟨h1, _⟩
    exact h1
  have h2 : (p == "openai" && h.openai_client_some) = false := by
    unfold ChatHandler.usable at hu
    rcases Bool.or_eq_false_iff.mp hu with ⟨_, h2⟩
    exact h2
  simp [streamGo, h1, h2]

theorem streamGo_ok_step (h : ChatHandler) (api : String → StreamAttempt)
    (p : String) (rest : List String)
    (hu : h.usable p = true) (hok : (api p).errored = false) :
    streamGo h api (p :: rest)
      = .setCur (some p) (some (h.model_for p)) :: (api p).fragments.map .out := by
  rcases usable_cases h p hu with ⟨hp, hc⟩ | ⟨hp, hc⟩
  <;> subst hp
  <;> simp [streamGo, ChatHandler.model_for, hc, hok]

/-- C8 step shape: a usable provider whose stream errors contributes its
scratch assignment and its already-yielded fragments to the trace, then a
scratch clear, then the fresh attempt on the remaining providers. -/
theorem streamGo_err_step (h : ChatHandler) (api : String → StreamAttempt)
    (p : String) (rest : List String)
    (hu : h.usable p = true) (he : (api p).errored = true) :
    streamGo h api (p :: rest)
      = .setCur (some p) (some (h.model_for p))
        :: ((api p).fragments.map .out
            ++ .setCur none none :: streamGo h api rest) := by
  rcases usable_cases h p hu with ⟨hp, hc⟩ | ⟨hp, hc⟩
  <;> subst hp
  <;> simp [streamGo, ChatHandler.model_for, hc, he]

theorem streamGo_cur_ne_nil (h : ChatHandler) (api : String → StreamAttempt) :
    ∀ l : List String, (streamGo h api l).filterMap pickCur ≠ [] := by
  intro l
  induction l with
  | nil => simp [streamGo, pickCur]
  | cons p rest ih =>
      cases hu : h.usable p with
      | false => rw [streamGo_skip h api p rest hu]; exact ih
      | true =>
          cases he : (api p).errored with
          | false =>
              rw [streamGo_ok_step h api p rest hu he]
              simp [pickCur, List.filterMap_cons]
          | true =>
              rw [streamGo_err_step h api p rest hu he]
              simp [pickCur, List.filterMap_cons]

theorem streamGo_all_fail (h : ChatHandler) (api : String → StreamAttempt)
    (hall : ∀ p, api p = { fragments := [], errored := true }) :
    ∀ l : List String,
      streamYields (streamGo h api l) = [streamErrText]
      ∧ streamFinalCur (streamGo h api l) = some (some "error", some "none") := by
  intro l
  induction l with
  | nil => exact ⟨rfl, rfl⟩
  | cons p rest ih =>
      cases hu : h.usable p with
      | false =>
          unfold streamYields streamFinalCur
          rw [streamGo_skip h api p rest hu]
          exact ih
      | true =>
          have he : (api p).errored = true := by rw [hall p]
          have hfr : (api p).fragments = [] := by rw [hall p]
          have h2 := ih.2
          unfold streamFinalCur at h2
          refine ⟨?_, ?_⟩
          · unfold streamYields
            rw [streamGo_err_step h api p rest hu he, hfr]
            show (streamGo h api rest).filterMap pickOut = [streamErrText]
            exact ih.1
          · unfold streamFinalCur
            rw [streamGo_err_step h api p rest hu he, hfr]
            show ([(some p, some (h.model_for p)), (none, none)]
                ++ (streamGo h api rest).filterMap pickCur).getLast?
              = some (some "error", some "none")
            rw [List.getLast?_append, h2]
            rfl

/-- C7 counterexample: with both providers configured and every stream
attempt completing successfully after yielding zero content fragments
(possible — every chunk can carry a `None` delta), the generator returns
after the first adapter: no adapter yielded even one fragment, yet the
output sequence is empty rather than ending with the generic error
string, and the scratch state records `('groq', <model>)`, not the
`('error', 'none')` sentinel. -/
theorem C7_counterexample :
    streamYields (handlerBothAuto.stream_response
        (fun _ => { fragments := [], errored := false })) = []
    ∧ streamFinalCur (handlerBothAuto.stream_response
        (fun _ => { fragments := [], errored := false }))
        = some (some "groq", some "llama-3.1-70b-versatile")
    ∧ streamFinalCur (handlerBothAuto.stream_response
        (fun _ => { fragments := [], errored := false }))
        ≠ some (some "error", some "none") := by decide

/-- C7 (amended): if every adapter's stream attempt raises without
yielding any fragment — rather than merely "no adapter yields a
fragment", since a stream may also complete successfully with zero
fragments, in which case the generator returns silently — then the
produced sequence is the single generic error fragment and the scratch
state records the `('error', 'none')` sentinel pair. -/
theorem C7_stream_error_sentinel (h : ChatHandler) (api : String → StreamAttempt)
    (hall : ∀ p, api p = { fragments := [], errored := true }) :
    streamYields (h.stream_response api) = [streamErrText]
    ∧ streamFinalCur (h.stream_response api) = some (some "error", some "none") :=
  streamGo_all_fail h api hall h.get_provider_order

theorem C7_stream_error_sentinel_witness :
    streamYields (handlerBothAuto.stream_response
        (fun _ => { fragments := [], errored := true })) = [streamErrText]
    ∧ streamFinalCur (handlerBothAuto.stream_response
        (fun _ => { fragments := [], errored := true }))
        = some (some "error", some "none") :=
  C7_stream_error_sentinel handlerBothAuto
    (fun _ => { fragments := [], errored := true }) (fun _ => rfl)

theorem streamGo_err_run (h : ChatHandler) (api : String → StreamAttempt) :
    ∀ (pre rest : List String),
      (∀ q ∈ pre, h.usable q = true) →
      (∀ q ∈ pre, (api q).errored = true) →
      streamYields (streamGo h api (pre ++ rest))
        = (pre.map (fun q => (api q).fragments)).flatten
          ++ streamYields (streamGo h api rest)
      ∧ streamFinalCur (streamGo h api (pre ++ rest))
        = streamFinalCur (streamGo h api rest) := by
  intro pre
  induction pre with
  | nil => intro rest _ _; simp
  | cons q pre ih =>
      intro rest hus hes
      have hu := hus q (List.mem_cons_self q pre)
      have he := hes q (List.mem_cons_self q pre)
      obtain ⟨ihy, ihc⟩ := ih rest (fun x hx => hus x (List.mem_cons_of_mem q hx))
        (fun x hx => hes x (List.mem_cons_of_mem q hx))
      have hne : ((streamGo h api (pre ++ rest)).filterMap pickCur).getLast? ≠ none := by
        intro hgl
        exact streamGo_cur_ne_nil h api (pre ++ rest) (List.getLast?_eq_none_iff.mp hgl)
      obtain ⟨c, hc⟩ := Option.ne_none_iff_exists.mp hne
      have hevents : StreamEv.setCur (some q) (some (h.model_for q))
          :: ((api q).fragments.map StreamEv.out
              ++ StreamEv.setCur none none :: streamGo h api (pre ++ rest))
        = (StreamEv.setCur (some q) (some (h.model_for q))
            :: ((api q).fragments.map StreamEv.out ++ [StreamEv.setCur none none]))
          ++ streamGo h api (pre ++ rest) := by simp
      constructor
      · unfold streamYields
        rw [List.cons_append, streamGo_err_step h api q (pre ++ rest) hu he, hevents,
            List.filterMap_append]
        have hbundle : (StreamEv.setCur (some q) (some (h.model_for q))
            :: ((api q).fragments.map StreamEv.out
                ++ [StreamEv.setCur none none])).filterMap pickOut
            = (api q).fragments := by
          rw [List.filterMap_cons]
          show ((api q).fragments.map StreamEv.out
              ++ [StreamEv.setCur none none]).filterMap pickOut = _
          rw [List.filterMap_append, filterMap_pickOut_map_out]
          simp [pickOut]
        rw [hbundle]
        unfold streamYields at ihy
        rw [ihy, List.map_cons, List.flatten_cons, List.append_assoc]
      · unfold streamFinalCur
        unfold streamFinalCur at ihc
        rw [List.cons_append, streamGo_err_step h api q (pre ++ rest) hu he, hevents,
            List.filterMap_append, List.getLast?_append, ← hc]
        show some c = _
        rw [hc, ihc]

/-- C8: mid-stream failure fallback. First conjunct — shape of one failed
attempt: the dispatcher sets the scratch provider/model, the fragments
already yielded stay in the trace (they are never retracted or replayed),
the scratch state is cleared (`setCur none none`), and a fresh stream
request is issued to the rest of the resolved order. Second conjunct —
over a run whose attempted adapters are a failing prefix followed by one
succeeding adapter, the full yielded sequence is exactly the
concatenation of each attempted adapter's partial output, and the scratch
state ends at the succeeding provider and its model. -/
theorem C8_stream_midflight_fallback (h : ChatHandler) (api : String → StreamAttempt) :
    (∀ p rest, h.usable p = true → (api p).errored = true →
        streamGo h api (p :: rest)
          = .setCur (some p) (some (h.model_for p))
            :: ((api p).fragments.map .out
                ++ .setCur none none :: streamGo h api rest))
    ∧ (∀ pre p rest,
        h.get_provider_order = pre ++ p :: rest →
        (∀ q ∈ pre, h.usable q = true) →
        (∀ q ∈ pre, (api q).errored = true) →
        h.usable p = true →
        (api p).errored = false →
        streamYields (h.stream_response api)
          = (pre.map (fun q => (api q).fragments)).flatten ++ (api p).fragments
        ∧ streamFinalCur (h.stream_response api)
          = some (some p, some (h.model_for p))) := by
  constructor
  · intro p rest hu he
    exact streamGo_err_step h api p rest hu he
  · intro pre p rest horder hus hes hu hok
    unfold ChatHandler.stream_response
    rw [horder]
    obtain ⟨hy, hc⟩ := streamGo_err_run h api pre (p :: rest) hus hes
    constructor
    · rw [hy]
      have : streamYields (streamGo h api (p :: rest)) = (api p).fragments := by
        unfold streamYields
        rw [streamGo_ok_step h api p rest hu hok]
        show ((api p).fragments.map StreamEv.out).filterMap pickOut = _
        exact filterMap_pickOut_map_out _
      rw [this]
    · rw [hc]
      unfold streamFinalCur
      rw [streamGo_ok_step h api p rest hu hok]
      show ((some p, some (h.model_for p))
          :: ((api p).fragments.map StreamEv.out).filterMap pickCur).getLast? = _
      rw [filterMap_pickCur_map_out]
      rfl

theorem C8_stream_midflight_fallback_witness :
    streamYields (handlerBothAuto.stream_response
        (fun p => if p == "groq" then { fragments := ["He", "llo"], errored := true }
                  else { fragments := ["wo", "rld"], errored := false }))
      = ["He", "llo", "wo", "rld"]
    ∧ streamFinalCur (handlerBothAuto.stream_response
        (fun p => if p == "groq" then { fragments := ["He", "llo"], errored := true }
                  else { fragments := ["wo", "rld"], errored := false }))
      = some (some "openai", some "gpt-3.5-turbo") := by
  obtain ⟨hy, hc⟩ := (C8_stream_midflight_fallback handlerBothAuto
      (fun p => if p == "groq" then { fragments := ["He", "llo"], errored := true }
                else { fragments := ["wo", "rld"], errored := false })).2
    ["groq"] "openai" [] (by decide) (by decide) (by decide) (by decide) (by decide)
  exact ⟨hy.trans (by decide), hc.trans (by decide)⟩
